import Mathlib

/-!
Verification development for the Constantine pseudo-const analysis.

Shallow embedding of the analysis core:
- declarations are identified by natural numbers (modelling the canonical
  declaration pointers used as set keys by the C++ code; 0 models the null
  pointer, real declarations are positive),
- C++ types are modelled by the inductive `CType`,
- expressions and statements by `CExpr` and `CStmt`,
- the per-scope collectors, the pseudo-constness state machine
  (ModuleAnalysis.cpp), the reference-closure resolver
  (DeclarationCollector.cpp) and the method-level ancestor walk
  (ScopeAnalysis.cpp, MethodAnalysis) are translated function by function.
-/

/-- A C++ type as queried by the analysis: builtin scalar, reference,
pointer, or class (record) type.  Each constructor carries its own
top-level const qualification; `ref` and `ptr` carry the pointee type.
This mirrors the clang QualType queries used by the source
(isReferenceType, isPointerType, getPointeeType, isConstQualified,
getNonReferenceType). -/
inductive CType where
  | builtin (isConst : Bool)
  | ref (isConst : Bool) (pointee : CType)
  | ptr (isConst : Bool) (pointee : CType)
  | record (isConst : Bool)
deriving DecidableEq, Repr

/-- QualType::isConstQualified. -/
def CType.isConstQualified : CType → Bool
  | .builtin c => c
  | .record c => c
  | .ref c _ => c
  | .ptr c _ => c

/-- Type::isReferenceType. -/
def CType.isReferenceType : CType → Bool
  | .ref _ _ => true
  | _ => false

/-- Type::isPointerType. -/
def CType.isPointerType : CType → Bool
  | .ptr _ _ => true
  | _ => false

/-- Type::getPointeeType (identity on non reference/pointer types; the
source only calls it under a reference/pointer guard). -/
def CType.getPointeeType : CType → CType
  | .ref _ p => p
  | .ptr _ p => p
  | t => t

/-- QualType::getNonReferenceType. -/
def CType.getNonReferenceType : CType → CType
  | .ref _ p => p
  | t => t

/-- Unary operator opcodes used by the analysis. -/
inductive UnOp where
  | preInc | preDec | postInc | postDec | addrOf | deref | minus
deriving DecidableEq, Repr

/-- UnaryOperator::isIncrementDecrementOp. -/
def UnOp.isIncrementDecrementOp : UnOp → Bool
  | .preInc => true
  | .preDec => true
  | .postInc => true
  | .postDec => true
  | _ => false

/-- Binary operator opcodes used by the analysis. -/
inductive BinOp where
  | assign | addAssign | subAssign | add | cmpEq
deriving DecidableEq, Repr

/-- BinaryOperator::isAssignmentOp (all compound assignments count). -/
def BinOp.isAssignmentOp : BinOp → Bool
  | .assign => true
  | .addAssign => true
  | .subAssign => true
  | _ => false

/-- The expression fragment the analysis inspects.  `declRef` is a
DeclRefExpr naming declaration `d`; `member e f` is a MemberExpr
accessing field or member `f` of object expression `e` (covering both
dot and arrow access, and implicit-this access when `e` is `thisExpr`);
`castE` covers all CastExpr nodes (implicit and explicit). -/
inductive CExpr where
  | declRef (d : ℕ)
  | intLit (n : Int)
  | thisExpr
  | paren (sub : CExpr)
  | castE (sub : CExpr)
  | materializeTemp (sub : CExpr)
  | arraySub (base idx : CExpr)
  | unary (op : UnOp) (sub : CExpr)
  | binary (op : BinOp) (lhs rhs : CExpr)
  | member (base : CExpr) (field : ℕ)
  | conditional (cond thenE elseE : CExpr)
deriving DecidableEq, Repr

/-- DeclarationCollector.cpp, StripExpr: strip parentheses, casts, unary
operators, temporary materialization and array subscripts (keeping the
base). -/
def StripExpr : CExpr → CExpr
  | .paren s => StripExpr s
  | .castE s => StripExpr s
  | .materializeTemp s => StripExpr s
  | .unary _ s => StripExpr s
  | .arraySub b _ => StripExpr b
  | e => e

/-- The inner dig loop of CollectRefereeExpr: while the base of the
member expression is itself a member expression, move to that base;
return the innermost member expression. -/
def DigMemberExpr : CExpr → CExpr
  | .member b f =>
    match b with
    | .member b2 f2 => DigMemberExpr (.member b2 f2)
    | _ => .member b f
  | e => e

/-- DeclarationCollector.cpp, CollectRefereeExpr.  The C++ work-list over
expressions is rendered as structural recursion: stripping (StripExpr) is
inlined in the first five cases, a DeclRefExpr is kept, a MemberExpr is
collapsed by the dig loop, and both branches of a conditional operator
are enqueued; every other stripped expression contributes nothing. -/
def CollectRefereeExpr : CExpr → Finset CExpr
  | .paren s => CollectRefereeExpr s
  | .castE s => CollectRefereeExpr s
  | .materializeTemp s => CollectRefereeExpr s
  | .unary _ s => CollectRefereeExpr s
  | .arraySub b _ => CollectRefereeExpr b
  | .declRef d => {.declRef d}
  | .member b f => {DigMemberExpr (.member b f)}
  | .conditional _ t f => CollectRefereeExpr t ∪ CollectRefereeExpr f
  | _ => ∅

/-- DeclarationCollector.cpp, GetDeclarationFromExpr: a DeclRefExpr
resolves to its declaration, a MemberExpr to its member declaration,
anything else to null. -/
def GetDeclarationFromExpr : CExpr → Option ℕ
  | .declRef d => some d
  | .member _ f => some f
  | _ => none

/-- Everything the analysis queries about one declaration: its declared
type, whether it is a VarDecl, and its initializer (if any). -/
structure DeclInfo where
  type : CType
  isVar : Bool
  init : Option CExpr
deriving DecidableEq

/-- Declaration table of one translation unit. -/
abbrev Env := ℕ → DeclInfo

/-- The referee declarations of one declaration: resolve every collected
referee expression of its initializer, mapping a failed resolution to the
null declaration 0 (GetReferedVariables inserts the possibly-null result
of GetDeclarationFromExpr into the work-list). -/
def refereeDeclIds (env : Env) (d : ℕ) : Finset ℕ :=
  match (env d).init with
  | none => ∅
  | some e => (CollectRefereeExpr e).image (fun ex => (GetDeclarationFromExpr ex).getD 0)

/-- Pop the smallest element of a finite set of declaration ids,
modelling `*(Works.begin())` followed by `Works.erase(Works.begin())`
on a std::set ordered by pointer value. -/
def popMin (s : Finset ℕ) : Option (ℕ × Finset ℕ) :=
  match s.min with
  | none => none
  | some a => some (a, s.erase a)

/-- The work-list loop of DeclarationCollector.cpp, GetReferedVariables,
with explicit fuel (the C++ loop has no termination measure; `none`
means the fuel was exhausted before the work-list emptied).  Each
iteration pops the current element, skips it if null, inserts it into
the result, stops descending if its type is neither reference nor
pointer, and otherwise (for a VarDecl) inserts all referee declarations
of its initializer into the work-list — without consulting the result
set. -/
def GetReferedVariablesGo (env : Env) : ℕ → Finset ℕ → Finset ℕ → Option (Finset ℕ)
  | 0, works, result => if works = ∅ then some result else none
  | fuel+1, works, result =>
    match popMin works with
    | none => some result
    | some (current, rest) =>
      if current = 0 then GetReferedVariablesGo env fuel rest result
      else
        let result2 := insert current result
        if (env current).type.isReferenceType || (env current).type.isPointerType then
          if (env current).isVar then
            GetReferedVariablesGo env fuel (rest ∪ refereeDeclIds env current) result2
          else
            GetReferedVariablesGo env fuel rest result2
        else
          GetReferedVariablesGo env fuel rest result2

/-- DeclarationCollector.cpp, GetReferedVariables, seeded with `d`. -/
def GetReferedVariables (env : Env) (fuel : ℕ) (d : ℕ) : Option (Finset ℕ) :=
  GetReferedVariablesGo env fuel {d} ∅

/-- Modelled from the spec: the helper `Register` used by the collectors
in ScopeAnalysis.cpp is declared in a header that is not under src/.
Per the spec, registering an expression records the declaration that the
expression denotes; we resolve it by stripping wrappers and reading off
the referenced declaration. -/
def Register (e : CExpr) : Option ℕ :=
  GetDeclarationFromExpr (StripExpr e)

/-- Modelled from the spec: IsCXXThisExpr.hpp is not under src/.  Per
the spec, it checks whether a member access resolves to the implicit
object; we check whether the base chain of the expression reaches the
CXXThisExpr. -/
def IsCXXThisExprCheck : CExpr → Bool
  | .thisExpr => true
  | .member b _ => IsCXXThisExprCheck b
  | .paren s => IsCXXThisExprCheck s
  | .castE s => IsCXXThisExprCheck s
  | .materializeTemp s => IsCXXThisExprCheck s
  | _ => false

/-- ScopeAnalysis.cpp, VariableChangeCollector, expression part: an
assignment registers its left-hand side, an increment/decrement
registers its operand; every subexpression is traversed.  (The call and
construct visitors of the same class are embedded separately over call
site data, below; the statements used by the concrete programs in this
development contain no calls.) -/
def VariableChangeCollectorExpr : CExpr → Finset ℕ
  | .declRef _ => ∅
  | .intLit _ => ∅
  | .thisExpr => ∅
  | .paren s => VariableChangeCollectorExpr s
  | .castE s => VariableChangeCollectorExpr s
  | .materializeTemp s => VariableChangeCollectorExpr s
  | .arraySub b i => VariableChangeCollectorExpr b ∪ VariableChangeCollectorExpr i
  | .unary op s =>
      (if op.isIncrementDecrementOp then (Register s).toFinset else ∅) ∪
        VariableChangeCollectorExpr s
  | .binary op l r =>
      (if op.isAssignmentOp then (Register l).toFinset else ∅) ∪
        VariableChangeCollectorExpr l ∪ VariableChangeCollectorExpr r
  | .member b _ => VariableChangeCollectorExpr b
  | .conditional c t f =>
      VariableChangeCollectorExpr c ∪ VariableChangeCollectorExpr t ∪
        VariableChangeCollectorExpr f

/-- ScopeAnalysis.cpp, VariableAccessCollector, expression part: every
DeclRefExpr registers its declaration, and a MemberExpr that resolves to
the implicit object registers its member. -/
def VariableAccessCollectorExpr : CExpr → Finset ℕ
  | .declRef d => {d}
  | .intLit _ => ∅
  | .thisExpr => ∅
  | .paren s => VariableAccessCollectorExpr s
  | .castE s => VariableAccessCollectorExpr s
  | .materializeTemp s => VariableAccessCollectorExpr s
  | .arraySub b i => VariableAccessCollectorExpr b ∪ VariableAccessCollectorExpr i
  | .unary _ s => VariableAccessCollectorExpr s
  | .binary _ l r => VariableAccessCollectorExpr l ∪ VariableAccessCollectorExpr r
  | .member b f =>
      (if IsCXXThisExprCheck b then {f} else ∅) ∪ VariableAccessCollectorExpr b
  | .conditional c t f =>
      VariableAccessCollectorExpr c ∪ VariableAccessCollectorExpr t ∪
        VariableAccessCollectorExpr f

/-- The statement fragment of one function body: expression statements,
single variable declarations with optional initializer (a DeclStmt with
several declarators is a sequence of these), sequencing, the empty
statement and return. -/
inductive CStmt where
  | expr (e : CExpr)
  | declOne (v : ℕ) (init : Option CExpr)
  | seq (s1 s2 : CStmt)
  | skip
  | ret (e : Option CExpr)
deriving DecidableEq, Repr

/-- The change collector run over a whole statement tree (the traversal
also descends into variable initializers inside declaration
statements). -/
def VariableChangeCollectorStmt : CStmt → Finset ℕ
  | .expr e => VariableChangeCollectorExpr e
  | .declOne _ none => ∅
  | .declOne _ (some e) => VariableChangeCollectorExpr e
  | .seq a b => VariableChangeCollectorStmt a ∪ VariableChangeCollectorStmt b
  | .skip => ∅
  | .ret none => ∅
  | .ret (some e) => VariableChangeCollectorExpr e

/-- The access collector run over a whole statement tree. -/
def VariableAccessCollectorStmt : CStmt → Finset ℕ
  | .expr e => VariableAccessCollectorExpr e
  | .declOne _ none => ∅
  | .declOne _ (some e) => VariableAccessCollectorExpr e
  | .seq a b => VariableAccessCollectorStmt a ∪ VariableAccessCollectorStmt b
  | .skip => ∅
  | .ret none => ∅
  | .ret (some e) => VariableAccessCollectorExpr e

/-- The result object of ScopeAnalysis::AnalyseThis: the key sets of the
two usage maps Changed and Used. -/
structure ScopeAnalysis where
  Changed : Finset ℕ
  Used : Finset ℕ
deriving DecidableEq

/-- ScopeAnalysis::AnalyseThis: run the two collectors over the same
statement tree. -/
def AnalyseThis (body : CStmt) : ScopeAnalysis :=
  ⟨VariableChangeCollectorStmt body, VariableAccessCollectorStmt body⟩

/-- ScopeAnalysis::WasChanged. -/
def ScopeAnalysis.WasChanged (a : ScopeAnalysis) (d : ℕ) : Prop := d ∈ a.Changed

/-- ScopeAnalysis::WasReferenced. -/
def ScopeAnalysis.WasReferenced (a : ScopeAnalysis) (d : ℕ) : Prop := d ∈ a.Used

instance (a : ScopeAnalysis) (d : ℕ) : Decidable (a.WasChanged d) := by
  unfold ScopeAnalysis.WasChanged; infer_instance

instance (a : ScopeAnalysis) (d : ℕ) : Decidable (a.WasReferenced d) := by
  unfold ScopeAnalysis.WasReferenced; infer_instance

/-- ModuleAnalysis.cpp, PseudoConstnessAnalysisState::IsConst: the
declared type, ignoring a top-level reference, is const qualified. -/
def IsConst (t : CType) : Bool :=
  t.getNonReferenceType.isConstQualified

/-- The two persistent sets of PseudoConstnessAnalysisState. -/
structure PState where
  Candidates : Finset ℕ
  Changed : Finset ℕ
deriving DecidableEq

/-- ModuleAnalysis.cpp, PseudoConstnessAnalysisState::Eval (the variant
under src/sources): a changed declaration is erased from Candidates and
inserted into Changed; otherwise a referenced declaration that is not
already in Changed and not declared const is inserted into
Candidates. -/
def Eval (env : Env) (a : ScopeAnalysis) (v : ℕ) (s : PState) : PState :=
  if a.WasChanged v then
    ⟨s.Candidates.erase v, insert v s.Changed⟩
  else if a.WasReferenced v then
    if v ∉ s.Changed then
      if ¬ IsConst (env v).type then ⟨insert v s.Candidates, s.Changed⟩ else s
    else s
  else s

/-- A sequence of Eval steps, as performed across the scopes of one
translation unit. -/
def runEvals (env : Env) (steps : List (ScopeAnalysis × ℕ)) (s : PState) : PState :=
  steps.foldl (fun st p => Eval env p.1 p.2 st) s

/-- ModuleAnalysis.cpp, AnalyseVariableUsage::OnFunctionDecl: analyse
the body once and Eval every variable of the function context (given
here in the iteration order of the std::set), starting from the given
state. -/
def OnFunctionDecl (env : Env) (body : CStmt) (vars : List ℕ) (s : PState) : PState :=
  runEvals env (vars.map (fun v => (AnalyseThis body, v))) s

/-- What MethodAnalysis::VisitCXXThisExpr reads off one ancestor
expression: its type and whether it is an rvalue. -/
structure ExprInfo where
  type : CType
  isRValue : Bool
deriving DecidableEq, Repr

/-- One ancestor node on the parent chain above a CXXThisExpr, as
classified by MethodAnalysis::VisitCXXThisExpr: an implicit cast, a
unary operator, a member access resolving to a member function (with
that function constness), a member access resolving to a data field, a
member access resolving to anything else, or any other statement. -/
inductive Ancestor where
  | implicitCast (info : ExprInfo)
  | unaryOp (op : UnOp) (info : ExprInfo)
  | memberMethod (methodIsConst : Bool)
  | memberField (info : ExprInfo)
  | memberOther
  | otherStmt
deriving DecidableEq, Repr

/-- Outcome of the type classification at one step of the ancestor walk:
return compatible, break as incompatible, or continue to the next
ancestor. -/
inductive TypeVerdict where
  | compatible
  | incompatible
  | continueUp
deriving DecidableEq, Repr

/-- The type classification at the end of the loop body of
MethodAnalysis::VisitCXXThisExpr: a reference type is compatible only if
const qualified, a pointer type only if its pointee is const and the
expression is an rvalue, a builtin type if the expression is an rvalue
or its type is const qualified; any other type breaks the walk.  A
failed reference/pointer/builtin test falls through and the walk
continues upward. -/
def TypeStepVerdict (info : ExprInfo) : TypeVerdict :=
  match info.type with
  | .ref c _ => if c then .compatible else .continueUp
  | .ptr _ p => if p.isConstQualified && info.isRValue then .compatible else .continueUp
  | .builtin c =>
      if info.isRValue then .compatible
      else if c then .compatible
      else .continueUp
  | .record _ => .incompatible

/-- ScopeAnalysis.cpp, MethodAnalysis::VisitCXXThisExpr, as a function
of the parent chain of one CXXThisExpr occurrence (nearest ancestor
first).  Returns the resulting m_isConst for this occurrence, starting
from m_isConst = true: a member access to a member function settles the
verdict to that function constness; an implicit cast, an address-of or
dereference unary operator, and a field access are transparent and the
type of the node is classified; everything else (including running out
of ancestors) settles the verdict to false. -/
def VisitCXXThisExpr : List Ancestor → Bool
  | [] => false
  | a :: rest =>
    match a with
    | .memberMethod c => c
    | .memberOther => false
    | .otherStmt => false
    | .implicitCast info =>
      match TypeStepVerdict info with
      | .compatible => true
      | .incompatible => false
      | .continueUp => VisitCXXThisExpr rest
    | .unaryOp op info =>
      if op = .addrOf ∨ op = .deref then
        match TypeStepVerdict info with
        | .compatible => true
        | .incompatible => false
        | .continueUp => VisitCXXThisExpr rest
      else false
    | .memberField info =>
      match TypeStepVerdict info with
      | .compatible => true
      | .incompatible => false
      | .continueUp => VisitCXXThisExpr rest

/-- MethodAnalysis run over a whole method body, given the parent chains
of all CXXThisExpr occurrences in it: m_isConst starts true and every
occurrence must keep it true. -/
def MethodAnalysisIsConst (occurrences : List (List Ancestor)) : Bool :=
  occurrences.all VisitCXXThisExpr

/-- The declaration-level flags of a method, as tested by the
method-eligibility driver. -/
structure MethodFlags where
  isVirtual : Bool
  isStatic : Bool
  isConst : Bool
  isUserProvided : Bool
  isOrdinary : Bool
deriving DecidableEq, Repr

/-- A method-eligibility verdict: no report, static candidate, or const
candidate. -/
inductive Verdict where
  | noCand
  | staticCand
  | constCand
deriving DecidableEq, Repr

/-- Modelled from the spec: the method-eligibility driver that invokes
MethodAnalysis (the newer OnCXXMethodDecl) is not under src/ (only its
callee MethodAnalysis, in ScopeAnalysis.cpp, and its test fixtures are).
Per the spec: only non-virtual, non-static, user-provided ordinary
methods are considered; a body that never mentions the implicit object
is a static candidate (short-circuiting before the const check); a
not-yet-const method whose every implicit-object occurrence is found
compatible by the ancestor walk is a const candidate; otherwise there is
no report. -/
def MethodEligibility (fl : MethodFlags) (mentionsThis : Bool)
    (occurrences : List (List Ancestor)) : Verdict :=
  if fl.isVirtual || fl.isStatic || !fl.isUserProvided || !fl.isOrdinary then .noCand
  else if !mentionsThis then .staticCand
  else if !fl.isConst && MethodAnalysisIsConst occurrences then .constCand
  else .noCand

/-- The declaration-level data of one method as read by the
method-eligibility code of ModuleAnalysis.cpp. -/
structure MethodInfo where
  id : ℕ
  isVirtual : Bool
  isStatic : Bool
  isConst : Bool
  isUserProvided : Bool
  isConstructor : Bool
  isConversion : Bool
  isDestructor : Bool
deriving DecidableEq, Repr

/-- ModuleAnalysis.cpp, AnalyseVariableUsage::IsCXXMethodDeclOnly: the
method is none of constructor, conversion operator, destructor. -/
def IsCXXMethodDeclOnly (f : MethodInfo) : Bool :=
  !f.isConstructor && !f.isConversion && !f.isDestructor

/-- ModuleAnalysis.cpp, AnalyseVariableUsage::IsMutatingMethod. -/
def IsMutatingMethod (f : MethodInfo) : Bool :=
  !f.isStatic && !f.isConst

/-- ModuleAnalysis.cpp, AnalyseVariableUsage::IsMemberMethod. -/
def IsMemberMethod (f : MethodInfo) : Bool :=
  !f.isStatic

/-- The method part of ModuleAnalysis.cpp,
AnalyseVariableUsage::OnCXXMethodDecl, as a decision function: given the
scope analysis of the body, the member variables and member methods of
the class, and the method flags, decide whether the method is inserted
into StaticCandidates, into ConstCandidates, or into neither.  The gate
requires non-virtual, non-static, non-const, user-provided, ordinary;
then zero member changes and zero referenced mutating member functions
admit the method, and it is a static candidate exactly when member and
member-function accesses are also zero, a const candidate otherwise. -/
def OnCXXMethodDeclVerdict (a : ScopeAnalysis) (memberVars : Finset ℕ)
    (memberFns : List MethodInfo) (f : MethodInfo) : Verdict :=
  if !f.isVirtual && !f.isStatic && !f.isConst && f.isUserProvided &&
      IsCXXMethodDeclOnly f then
    let memberChanges := (memberVars.filter (fun v => v ∈ a.Changed)).card
    let functionChanges :=
      ((memberFns.filter IsMutatingMethod).filter (fun m => m.id ∈ a.Used)).length
    if memberChanges = 0 ∧ functionChanges = 0 then
      let memberAccess := (memberVars.filter (fun v => v ∈ a.Used)).card
      let functionAccess :=
        ((memberFns.filter IsMemberMethod).filter (fun m => m.id ∈ a.Used)).length
      if memberAccess = 0 ∧ functionAccess = 0 then .staticCand else .constCand
    else .noCand
  else .noCand

/-- Everything OnCXXMethodDecl consumes for one method definition. -/
structure MethodEntry where
  analysis : ScopeAnalysis
  memberVars : Finset ℕ
  memberFns : List MethodInfo
  decl : MethodInfo
deriving DecidableEq

/-- One OnCXXMethodDecl step acting on the pair
(StaticCandidates, ConstCandidates). -/
def methodStep (st : Finset ℕ × Finset ℕ) (e : MethodEntry) : Finset ℕ × Finset ℕ :=
  match OnCXXMethodDeclVerdict e.analysis e.memberVars e.memberFns e.decl with
  | .staticCand => (insert e.decl.id st.1, st.2)
  | .constCand => (st.1, insert e.decl.id st.2)
  | .noCand => st

/-- The (StaticCandidates, ConstCandidates) pair accumulated over the
method definitions of one translation unit, in traversal order. -/
def runMethods (es : List MethodEntry) : Finset ℕ × Finset ℕ :=
  es.foldl methodStep (∅, ∅)

/-- The location and name of a declaration, as used by the reporting
code (names and locations are modelled as naturals). -/
structure SrcDecl where
  name : ℕ
  loc : ℕ
deriving DecidableEq, Repr

/-- One emitted diagnostic: the location it is reported at, the name
substituted into the message, and the force-emit flag. -/
structure Diagnostic where
  loc : ℕ
  name : ℕ
  forced : Bool
deriving DecidableEq, Repr

/-- ModuleAnalysis.cpp, ReportVariablePseudoConstness: report the
"variable could be declared as const" warning at the declaration
location, with the declaration name, force-emitted. -/
def ReportVariablePseudoConstness (v : SrcDecl) : Diagnostic :=
  ⟨v.loc, v.name, true⟩

/-- ModuleAnalysis.cpp, PseudoConstnessAnalysisState::GenerateReports:
one report for every declaration in Candidates — the source applies no
filter of any kind to this set (in particular no main-module filter;
declOf gives the declaration data of each id). -/
def GenerateReports (declOf : ℕ → SrcDecl) (candidates : Finset ℕ) : Finset Diagnostic :=
  candidates.image (fun d => ReportVariablePseudoConstness (declOf d))

/-- Modelled from the spec, for comparison with GenerateReports: the
report stage as the spec describes it, with candidates filtered to
declarations whose source location belongs to the primary translation
unit. -/
def GenerateReportsMainModuleOnly (isMainModule : ℕ → Bool) (declOf : ℕ → SrcDecl)
    (candidates : Finset ℕ) : Finset Diagnostic :=
  (candidates.filter (fun d => isMainModule (declOf d).loc)).image
    (fun d => ReportVariablePseudoConstness (declOf d))

/-- The parameter list of a direct callee, as read through
getParamDecl. -/
structure FnInfo where
  params : List CType
deriving DecidableEq

/-- One call expression as read by VariableChangeCollector::VisitCallExpr:
the argument expressions, the direct callee (if resolvable), and whether
the call is an operator call on a method (HasThisAsFirstArgument:
CXXOperatorCallExpr with a direct callee that is a CXXMethodDecl). -/
structure CallSite where
  args : List CExpr
  callee : Option FnInfo
  isOperatorMemberCall : Bool
deriving DecidableEq

/-- ScopeAnalysis.cpp, IsNonConstReferenced: the type is a reference or
pointer whose pointee is not const qualified. -/
def IsNonConstReferenced (t : CType) : Bool :=
  (t.isReferenceType || t.isPointerType) && !(t.getPointeeType.isConstQualified)

/-- The argument offset of VisitCallExpr: 1 when the call has `this` as
first argument, else 0. -/
def callOffset (c : CallSite) : ℕ :=
  if c.isOperatorMemberCall then 1 else 0

/-- ScopeAnalysis.cpp, VariableChangeCollector::VisitCallExpr: with a
direct callee, walk the parameter positions up to
min(number of arguments, number of parameters); a parameter of
non-const reference or pointer type registers the argument at that
position plus the offset, with the parameter pointee type recorded.
Each registration is returned as
(argument index, argument lookup at that index, recorded pointee type);
a lookup result of `none` would be an out-of-bounds getArg. -/
def VisitCallExprRegistrations (c : CallSite) : List (ℕ × Option CExpr × CType) :=
  match c.callee with
  | none => []
  | some F =>
    (List.range (min c.args.length F.params.length)).filterMap fun i =>
      match F.params.get? i with
      | none => none
      | some p =>
        if IsNonConstReferenced p then
          some (i + callOffset c, c.args.get? (i + callOffset c), p.getPointeeType)
        else none

/-- ScopeAnalysis.cpp, VariableChangeCollector::VisitCXXConstructExpr:
same parameter walk over the constructor parameters, with no offset. -/
def VisitCXXConstructExprRegistrations (args : List CExpr) (F : FnInfo) :
    List (ℕ × Option CExpr × CType) :=
  (List.range (min args.length F.params.length)).filterMap fun i =>
    match F.params.get? i with
    | none => none
    | some p =>
      if IsNonConstReferenced p then some (i, args.get? i, p.getPointeeType)
      else none

/-- Declaration table for the aliasing scope `int k = 0; int &j = k; ++j;`
of the test fixture: declaration 1 is k (int, VarDecl, initialized with 0),
declaration 2 is j (int reference, VarDecl, initialized from k). -/
def aliasEnv : Env := fun d =>
  if d = 2 then ⟨.ref false (.builtin false), true, some (.declRef 1)⟩
  else if d = 1 then ⟨.builtin false, true, some (.intLit 0)⟩
  else ⟨.builtin false, false, none⟩

/-- The statement tree of `int k = 0; int &j = k; ++j;`. -/
def aliasBody : CStmt :=
  .seq (.declOne 1 (some (.intLit 0)))
    (.seq (.declOne 2 (some (.declRef 1)))
      (.expr (.unary .preInc (.declRef 2))))

/-- Declaration table for the self-assignment scope `int k = 0; k = k;`:
declaration 1 is k. -/
def selfAssignEnv : Env := fun _ => ⟨.builtin false, true, none⟩

/-- The statement tree of `int k = 0; k = k;`. -/
def selfAssignBody : CStmt :=
  .seq (.declOne 1 (some (.intLit 0)))
    (.expr (.binary .assign (.declRef 1) (.declRef 1)))

/-- Declaration table for `int &a = a;`: declaration 1 is a, a reference
variable whose initializer refers to a itself. -/
def selfRefEnv : Env := fun d =>
  if d = 1 then ⟨.ref false (.builtin false), true, some (.declRef 1)⟩
  else ⟨.builtin false, false, none⟩

lemma popMin_singleton_one : popMin ({1} : Finset ℕ) = some (1, ∅) := by decide

lemma refereeDeclIds_selfRef : refereeDeclIds selfRefEnv 1 = {1} := by decide

lemma grv_selfRef_step (n : ℕ) (r : Finset ℕ) :
    GetReferedVariablesGo selfRefEnv (n+1) {1} r =
      GetReferedVariablesGo selfRefEnv n {1} (insert 1 r) := by
  simp only [GetReferedVariablesGo, popMin_singleton_one, refereeDeclIds_selfRef]
  norm_num [selfRefEnv, CType.isReferenceType]

lemma grv_selfRef_loop (n : ℕ) :
    ∀ r : Finset ℕ, GetReferedVariablesGo selfRefEnv n {1} (insert 1 r) = none := by
  induction n with
  | zero =>
    intro r
    simp only [GetReferedVariablesGo]
    rw [if_neg (Finset.singleton_ne_empty 1)]
  | succ n ih =>
    intro r
    rw [grv_selfRef_step]
    exact ih (insert 1 r)

/-- Claim C5: the claim states that GetReferedVariables terminates on
every seed declaration, the result set acting as a visited set.  The
code has no such visited check: on the self-referential seed
`int &a = a;` (selfRefEnv, declaration 1) the work-list regains the
already-processed declaration on every iteration, so the loop never
finishes — for every fuel bound the loop is still running. -/
theorem GetReferedVariables_selfRef_diverges :
    ∀ fuel : ℕ, GetReferedVariables selfRefEnv fuel 1 = none := by
  intro fuel
  cases fuel with
  | zero =>
    simp only [GetReferedVariables, GetReferedVariablesGo]
    rw [if_neg (Finset.singleton_ne_empty 1)]
  | succ n =>
    rw [GetReferedVariables, grv_selfRef_step]
    exact grv_selfRef_loop n ∅

/-- Claim C1: evaluation of the pseudo-constness state machine of
src/sources/ModuleAnalysis.cpp on the scope `int k = 0; int &j = k; ++j;`
(k is declaration 1, j is declaration 2).  The claim states that both k
and j are excluded from the candidate set.  The Eval under src marks
only the directly mutated j as Changed and never consults the
reference closure, so k survives as a const candidate — contradicting
the claim and the expectation of the repository test fixture. -/
theorem Eval_alias_change_not_propagated :
    (OnFunctionDecl aliasEnv aliasBody [1, 2] ⟨∅, ∅⟩).Candidates = {1} ∧
    (OnFunctionDecl aliasEnv aliasBody [1, 2] ⟨∅, ∅⟩).Changed = {2} := by
  decide

/-- Claim C3, counterexample: on the scope `int k = 0; k = k;` (k is
declaration 1) the collector registers k as changed and Eval therefore
permanently excludes it, so k is NOT a const candidate — the claim
states that k is still reported. -/
theorem Eval_self_assignment_excludes :
    (AnalyseThis selfAssignBody).Changed = {1} ∧
    (OnFunctionDecl selfAssignEnv selfAssignBody [1] ⟨∅, ∅⟩).Candidates = ∅ ∧
    1 ∈ (OnFunctionDecl selfAssignEnv selfAssignBody [1] ⟨∅, ∅⟩).Changed := by
  decide

/-- Claim C3, amended: a variable whose scope analysis says it was
changed — in particular one whose only mutating occurrence is a
self-assignment — is always removed from Candidates and inserted into
Changed by Eval, hence never reported as a const candidate. -/
theorem Eval_changed_always_excluded (env : Env) (a : ScopeAnalysis) (v : ℕ)
    (s : PState) (h : a.WasChanged v) :
    v ∉ (Eval env a v s).Candidates ∧ v ∈ (Eval env a v s).Changed := by
  unfold Eval
  rw [if_pos h]
  exact ⟨Finset.not_mem_erase v s.Candidates, Finset.mem_insert_self v s.Changed⟩

/-- Witness for the amended C3 theorem at the concrete self-assignment
scope. -/
theorem Eval_changed_always_excluded_witness :
    1 ∉ (Eval selfAssignEnv (AnalyseThis selfAssignBody) 1 ⟨∅, ∅⟩).Candidates ∧
    1 ∈ (Eval selfAssignEnv (AnalyseThis selfAssignBody) 1 ⟨∅, ∅⟩).Changed :=
  Eval_changed_always_excluded selfAssignEnv (AnalyseThis selfAssignBody) 1 ⟨∅, ∅⟩
    (by decide)

/-- Build the member-access chain `base.f1.f2...fn` (fields listed
outermost object first). -/
def MkMemberChain (base : CExpr) : List ℕ → CExpr
  | [] => base
  | f :: fs => MkMemberChain (.member base f) fs

lemma DigMemberExpr_chain (fs : List ℕ) :
    ∀ (b : CExpr) (f : ℕ),
      DigMemberExpr (MkMemberChain (.member b f) fs) = DigMemberExpr (.member b f) := by
  induction fs with
  | nil => intro b f; rfl
  | cons c rest ih =>
    intro b f
    have h1 : MkMemberChain (.member b f) (c :: rest) =
        MkMemberChain (.member (.member b f) c) rest := rfl
    rw [h1, ih (.member b f) c]
    rfl

lemma CollectRefereeExpr_chain (fs : List ℕ) :
    ∀ (b : CExpr) (f : ℕ),
      CollectRefereeExpr (MkMemberChain (.member b f) fs) =
        {DigMemberExpr (MkMemberChain (.member b f) fs)} := by
  induction fs with
  | nil => intro b f; rfl
  | cons c rest ih => intro b f; exact ih (.member b f) c

/-- The chain `a.b.c` with a = declaration 1, fields b = 2, c = 3. -/
def chainABC : CExpr := .member (.member (.declRef 1) 2) 3

/-- Claim C6, counterexample: on the chain `a.b.c` the referee
resolution of DeclarationCollector.cpp yields the declaration of the
first field b (declaration 2) — not the declaration of the outermost
object a (declaration 1) as the claim states, and not c (3) either. -/
theorem CollectReferee_chain_counterexample :
    (CollectRefereeExpr chainABC).image GetDeclarationFromExpr = {some 2} ∧
    (2 : ℕ) ≠ 1 ∧ (2 : ℕ) ≠ 3 := by
  decide

/-- Claim C6, amended: for every member-access chain `a.f1.f2...fn` on
an object `a`, the dig loop of CollectRefereeExpr collapses the chain to
its innermost member expression `a.f1`, and GetDeclarationFromExpr then
resolves it to the declaration of the first (outermost) member f1 — not
to the innermost member and not to `a` itself. -/
theorem CollectReferee_chain_resolves_first_member (a f : ℕ) (fs : List ℕ) :
    (CollectRefereeExpr (MkMemberChain (.declRef a) (f :: fs))).image
      GetDeclarationFromExpr = {some f} := by
  have h1 : MkMemberChain (.declRef a) (f :: fs) =
      MkMemberChain (.member (.declRef a) f) fs := rfl
  rw [h1, CollectRefereeExpr_chain, DigMemberExpr_chain]
  simp [DigMemberExpr, GetDeclarationFromExpr, Finset.image_singleton]

/-- Witness for the amended C6 theorem on the concrete chain a.b.c. -/
theorem CollectReferee_chain_resolves_first_member_witness :
    (CollectRefereeExpr (MkMemberChain (.declRef 1) (2 :: [3]))).image
      GetDeclarationFromExpr = {some 2} :=
  CollectReferee_chain_resolves_first_member 1 2 [3]

/-- The parent chain of the CXXThisExpr in `return m_value;` inside a
method returning a non-const int reference: the MemberExpr for the
field m_value (an int lvalue), then the ReturnStmt.  With the non-const
builtin lvalue the walk continues upward, and the ReturnStmt breaks it:
verdict false. -/
def returnRefOccurrence : List Ancestor :=
  [.memberField ⟨.builtin false, false⟩, .otherStmt]

/-- The parent chain of the CXXThisExpr in `return &m_value;` inside a
method returning a non-const int pointer: the field MemberExpr, the
address-of operator (an int pointer rvalue with non-const pointee),
then the ReturnStmt. -/
def returnPtrOccurrence : List Ancestor :=
  [.memberField ⟨.builtin false, false⟩,
   .unaryOp .addrOf ⟨.ptr false (.builtin false), true⟩,
   .otherStmt]

/-- Claim C2: a method body returning a non-const reference (or pointer)
to an internal field is vetoed by the ancestor walk of
MethodAnalysis::VisitCXXThisExpr — the non-const builtin lvalue and the
non-const-pointee pointer each fail to classify as compatible, the walk
runs into the enclosing return statement and settles to non-const — so
whatever the declaration flags of the method are, the eligibility
driver never makes it a const candidate. -/
theorem MethodAnalysis_nonconst_ref_return_vetoed (fl : MethodFlags) :
    VisitCXXThisExpr returnRefOccurrence = false ∧
    VisitCXXThisExpr returnPtrOccurrence = false ∧
    MethodEligibility fl true [returnRefOccurrence] ≠ .constCand ∧
    MethodEligibility fl true [returnPtrOccurrence] ≠ .constCand := by
  obtain ⟨v, s, c, u, o⟩ := fl
  cases v <;> cases s <;> cases c <;> cases u <;> cases o <;> decide

/-- Witness for the C2 theorem at the flags of a plain user-provided
ordinary method. -/
theorem MethodAnalysis_nonconst_ref_return_vetoed_witness :
    VisitCXXThisExpr returnRefOccurrence = false ∧
    VisitCXXThisExpr returnPtrOccurrence = false ∧
    MethodEligibility ⟨false, false, false, true, true⟩ true
      [returnRefOccurrence] ≠ .constCand ∧
    MethodEligibility ⟨false, false, false, true, true⟩ true
      [returnPtrOccurrence] ≠ .constCand :=
  MethodAnalysis_nonconst_ref_return_vetoed ⟨false, false, false, true, true⟩

lemma Eval_preserves (env : Env) (a : ScopeAnalysis) (v : ℕ) (s : PState)
    (h : Disjoint s.Candidates s.Changed) :
    Disjoint (Eval env a v s).Candidates (Eval env a v s).Changed ∧
      s.Changed ⊆ (Eval env a v s).Changed := by
  unfold Eval
  by_cases h1 : a.WasChanged v
  · rw [if_pos h1]
    constructor
    · rw [Finset.disjoint_left]
      intro x hx hx2
      rcases Finset.mem_insert.mp hx2 with rfl | hx2
      · exact (Finset.mem_erase.mp hx).1 rfl
      · exact Finset.disjoint_left.mp h (Finset.mem_of_mem_erase hx) hx2
    · exact Finset.subset_insert v s.Changed
  · rw [if_neg h1]
    by_cases h2 : a.WasReferenced v
    · rw [if_pos h2]
      by_cases h3 : v ∉ s.Changed
      · rw [if_pos h3]
        by_cases h4 : ¬ IsConst (env v).type
        · rw [if_pos h4]
          refine ⟨?_, subset_refl _⟩
          rw [Finset.disjoint_left]
          intro x hx hx2
          rcases Finset.mem_insert.mp hx with rfl | hx
          · exact h3 hx2
          · exact Finset.disjoint_left.mp h hx hx2
        · rw [if_neg h4]; exact ⟨h, subset_refl _⟩
      · rw [if_neg h3]; exact ⟨h, subset_refl _⟩
    · rw [if_neg h2]; exact ⟨h, subset_refl _⟩

lemma runEvals_preserves (env : Env) (steps : List (ScopeAnalysis × ℕ)) :
    ∀ s : PState, Disjoint s.Candidates s.Changed →
      Disjoint (runEvals env steps s).Candidates (runEvals env steps s).Changed ∧
        s.Changed ⊆ (runEvals env steps s).Changed := by
  induction steps with
  | nil => intro s h; exact ⟨h, subset_refl _⟩
  | cons p rest ih =>
    intro s h
    have hstep := Eval_preserves env p.1 p.2 s h
    have hdef : runEvals env (p :: rest) s = runEvals env rest (Eval env p.1 p.2 s) := rfl
    rw [hdef]
    have hrest := ih (Eval env p.1 p.2 s) hstep.1
    exact ⟨hrest.1, hstep.2.trans hrest.2⟩

/-- Claim C7: starting from any state satisfying the invariant
Candidates and Changed disjoint (in particular from the empty initial
state), after any sequence of Eval steps the invariant still holds, and
every declaration that is in Changed at some point is still in Changed
and outside Candidates after every later sequence of Eval calls. -/
theorem PseudoConstness_invariant (env : Env) (steps : List (ScopeAnalysis × ℕ))
    (s : PState) (h : Disjoint s.Candidates s.Changed) :
    Disjoint (runEvals env steps s).Candidates (runEvals env steps s).Changed ∧
    ∀ v ∈ s.Changed, v ∈ (runEvals env steps s).Changed ∧
      v ∉ (runEvals env steps s).Candidates := by
  obtain ⟨h1, h2⟩ := runEvals_preserves env steps s h
  refine ⟨h1, fun v hv => ⟨h2 hv, fun hc => ?_⟩⟩
  exact Finset.disjoint_left.mp h1 hc (h2 hv)

/-- Witness for the C7 theorem: a concrete run in which declaration 2 is
already Changed, one scope changes declaration 1 and references 3. -/
theorem PseudoConstness_invariant_witness :
    Disjoint
      (runEvals selfAssignEnv
        [(⟨{1}, {1, 3}⟩, 1), (⟨{1}, {1, 3}⟩, 3)] ⟨{3}, {2}⟩).Candidates
      (runEvals selfAssignEnv
        [(⟨{1}, {1, 3}⟩, 1), (⟨{1}, {1, 3}⟩, 3)] ⟨{3}, {2}⟩).Changed ∧
    ∀ v ∈ (PState.mk {3} {2}).Changed,
      v ∈ (runEvals selfAssignEnv
        [(⟨{1}, {1, 3}⟩, 1), (⟨{1}, {1, 3}⟩, 3)] ⟨{3}, {2}⟩).Changed ∧
      v ∉ (runEvals selfAssignEnv
        [(⟨{1}, {1, 3}⟩, 1), (⟨{1}, {1, 3}⟩, 3)] ⟨{3}, {2}⟩).Candidates :=
  PseudoConstness_invariant selfAssignEnv
    [(⟨{1}, {1, 3}⟩, 1), (⟨{1}, {1, 3}⟩, 3)] ⟨{3}, {2}⟩ (by decide)

lemma methodStep_cases (st : Finset ℕ × Finset ℕ) (e : MethodEntry) :
    methodStep st e = st ∨
    methodStep st e = (insert e.decl.id st.1, st.2) ∨
    methodStep st e = (st.1, insert e.decl.id st.2) := by
  unfold methodStep
  cases hv : OnCXXMethodDeclVerdict e.analysis e.memberVars e.memberFns e.decl <;>
    simp [hv]

lemma foldl_methodStep_disjoint (es : List MethodEntry) :
    ∀ st : Finset ℕ × Finset ℕ, Disjoint st.1 st.2 →
      (∀ e ∈ es, e.decl.id ∉ st.1 ∧ e.decl.id ∉ st.2) →
      (es.map (fun e => e.decl.id)).Nodup →
      Disjoint (es.foldl methodStep st).1 (es.foldl methodStep st).2 := by
  induction es with
  | nil => intro st h _ _; exact h
  | cons e rest ih =>
    intro st h hfresh hnodup
    have hfr := hfresh e (List.mem_cons_self e rest)
    rw [List.map_cons, List.nodup_cons] at hnodup
    have hne : ∀ e2 ∈ rest, e2.decl.id ≠ e.decl.id := by
      intro e2 he2 hEq
      exact hnodup.1 (hEq ▸ List.mem_map.mpr ⟨e2, he2, rfl⟩)
    have hfold : (e :: rest).foldl methodStep st = rest.foldl methodStep (methodStep st e) :=
      rfl
    rw [hfold]
    rcases methodStep_cases st e with hcase | hcase | hcase
    · rw [hcase]
      exact ih st h (fun e2 he2 => hfresh e2 (List.mem_cons_of_mem e he2)) hnodup.2
    · rw [hcase]
      apply ih _ ?_ ?_ hnodup.2
      · rw [Finset.disjoint_left]
        intro x hx hx2
        rcases Finset.mem_insert.mp hx with rfl | hx
        · exact hfr.2 hx2
        · exact Finset.disjoint_left.mp h hx hx2
      · intro e2 he2
        have h2 := hfresh e2 (List.mem_cons_of_mem e he2)
        refine ⟨fun hx => ?_, h2.2⟩
        rcases Finset.mem_insert.mp hx with hEq | hx
        · exact hne e2 he2 hEq
        · exact h2.1 hx
    · rw [hcase]
      apply ih _ ?_ ?_ hnodup.2
      · rw [Finset.disjoint_right]
        intro x hx hx2
        rcases Finset.mem_insert.mp hx with rfl | hx
        · exact hfr.1 hx2
        · exact Finset.disjoint_right.mp h hx hx2
      · intro e2 he2
        have h2 := hfresh e2 (List.mem_cons_of_mem e he2)
        refine ⟨h2.1, fun hx => ?_⟩
        rcases Finset.mem_insert.mp hx with hEq | hx
        · exact hne e2 he2 hEq
        · exact h2.2 hx

lemma OnCXXMethodDecl_no_receiver_not_const (a : ScopeAnalysis) (mv : Finset ℕ)
    (mf : List MethodInfo) (f : MethodInfo)
    (hmv : ∀ v ∈ mv, v ∉ a.Changed ∧ v ∉ a.Used)
    (hmf : ∀ m ∈ mf, m.id ∉ a.Used) :
    OnCXXMethodDeclVerdict a mv mf f ≠ .constCand := by
  have hmc : mv.filter (fun v => v ∈ a.Changed) = ∅ :=
    Finset.filter_eq_empty_iff.mpr fun v hv => (hmv v hv).1
  have hma : mv.filter (fun v => v ∈ a.Used) = ∅ :=
    Finset.filter_eq_empty_iff.mpr fun v hv => (hmv v hv).2
  have hfc : (mf.filter IsMutatingMethod).filter (fun m => m.id ∈ a.Used) = [] := by
    rw [List.filter_eq_nil_iff]
    intro m hm
    simpa using hmf m (List.mem_of_mem_filter hm)
  have hfa : (mf.filter IsMemberMethod).filter (fun m => m.id ∈ a.Used) = [] := by
    rw [List.filter_eq_nil_iff]
    intro m hm
    simpa using hmf m (List.mem_of_mem_filter hm)
  simp only [OnCXXMethodDeclVerdict, hmc, hma, hfc, hfa, Finset.card_empty,
    List.length_nil, and_self, if_true]
  split <;> simp

lemma OnCXXMethodDecl_instance_access_not_static (a : ScopeAnalysis) (mv : Finset ℕ)
    (mf : List MethodInfo) (f : MethodInfo)
    (hacc : (∃ v ∈ mv, v ∈ a.Used) ∨
      ∃ m ∈ mf, m.isStatic = false ∧ m.id ∈ a.Used) :
    OnCXXMethodDeclVerdict a mv mf f ≠ .staticCand := by
  have hne : ¬ ((mv.filter (fun v => v ∈ a.Used)).card = 0 ∧
      ((mf.filter IsMemberMethod).filter (fun m => m.id ∈ a.Used)).length = 0) := by
    rintro ⟨h1, h2⟩
    rcases hacc with ⟨v, hv, hu⟩ | ⟨m, hm, hs, hu⟩
    · have hmem : v ∈ mv.filter (fun v => v ∈ a.Used) := Finset.mem_filter.mpr ⟨hv, hu⟩
      rw [Finset.card_eq_zero] at h1
      rw [h1] at hmem
      exact Finset.not_mem_empty v hmem
    · have hmem : m ∈ (mf.filter IsMemberMethod).filter (fun m => m.id ∈ a.Used) := by
        refine List.mem_filter.mpr ⟨List.mem_filter.mpr ⟨hm, ?_⟩, ?_⟩
        · simp [IsMemberMethod, hs]
        · simp [hu]
      rw [List.length_eq_zero] at h2
      rw [h2] at hmem
      exact List.not_mem_nil m hmem
  simp only [OnCXXMethodDeclVerdict, if_neg hne]
  split
  · split
    · simp
    · simp
  · simp

/-- Claim C8: over any translation unit in which each method definition
is evaluated once (pairwise distinct method declarations), the
accumulated StaticCandidates and ConstCandidates sets are disjoint —
no method is inserted into both; moreover a method whose body never
touches instance state (no member variable changed or referenced, no
member function referenced) is never a const candidate, and a method
whose body accesses instance state (a member variable, or a non-static
member function, referenced) is never a static candidate. -/
theorem MethodCandidates_exclusive (es : List MethodEntry)
    (h : (es.map (fun e => e.decl.id)).Nodup) :
    Disjoint (runMethods es).1 (runMethods es).2 ∧
    (∀ (a : ScopeAnalysis) (mv : Finset ℕ) (mf : List MethodInfo) (f : MethodInfo),
      (∀ v ∈ mv, v ∉ a.Changed ∧ v ∉ a.Used) → (∀ m ∈ mf, m.id ∉ a.Used) →
        OnCXXMethodDeclVerdict a mv mf f ≠ .constCand) ∧
    (∀ (a : ScopeAnalysis) (mv : Finset ℕ) (mf : List MethodInfo) (f : MethodInfo),
      ((∃ v ∈ mv, v ∈ a.Used) ∨ ∃ m ∈ mf, m.isStatic = false ∧ m.id ∈ a.Used) →
        OnCXXMethodDeclVerdict a mv mf f ≠ .staticCand) :=
  ⟨foldl_methodStep_disjoint es (∅, ∅) (by simp) (fun e _ => by simp) h,
   OnCXXMethodDecl_no_receiver_not_const,
   OnCXXMethodDecl_instance_access_not_static⟩

/-- Two concrete method definitions: method 10 reads member variable 7
(a const candidate), method 11 touches no instance state (a static
candidate). -/
def methodEntriesFixture : List MethodEntry :=
  [⟨⟨∅, {7}⟩, {7}, [], ⟨10, false, false, false, true, false, false, false⟩⟩,
   ⟨⟨∅, ∅⟩, ∅, [], ⟨11, false, false, false, true, false, false, false⟩⟩]

/-- Witness for the C8 theorem on the concrete two-method fixture. -/
theorem MethodCandidates_exclusive_witness :
    Disjoint (runMethods methodEntriesFixture).1 (runMethods methodEntriesFixture).2 ∧
    (∀ (a : ScopeAnalysis) (mv : Finset ℕ) (mf : List MethodInfo) (f : MethodInfo),
      (∀ v ∈ mv, v ∉ a.Changed ∧ v ∉ a.Used) → (∀ m ∈ mf, m.id ∉ a.Used) →
        OnCXXMethodDeclVerdict a mv mf f ≠ .constCand) ∧
    (∀ (a : ScopeAnalysis) (mv : Finset ℕ) (mf : List MethodInfo) (f : MethodInfo),
      ((∃ v ∈ mv, v ∈ a.Used) ∨ ∃ m ∈ mf, m.isStatic = false ∧ m.id ∈ a.Used) →
        OnCXXMethodDeclVerdict a mv mf f ≠ .staticCand) :=
  MethodCandidates_exclusive methodEntriesFixture (by decide)

/-- A declaration table in which every declaration sits at source
location 100. -/
def declOfFixture : ℕ → SrcDecl := fun d => ⟨d, 100⟩

/-- A main-module predicate under which no location belongs to the
primary module. -/
def notMainModule : ℕ → Bool := fun _ => false

/-- Claim C9, counterexample: candidate 5 sits at a location that does
not belong to the primary module, yet GenerateReports (the production
report path, which applies no location filter) still emits its
diagnostic; the report stage the spec describes
(GenerateReportsMainModuleOnly) would emit nothing. -/
theorem GenerateReports_counterexample :
    ReportVariablePseudoConstness (declOfFixture 5) ∈
      GenerateReports declOfFixture {5} ∧
    notMainModule (declOfFixture 5).loc = false ∧
    GenerateReportsMainModuleOnly notMainModule declOfFixture {5} = ∅ := by
  decide

/-- Claim C9, amended: every candidate surviving to the end of the pass
is reported by GenerateReports regardless of its source location — in
particular also when its location does not belong to the primary
module.  (Only the debug dump paths of ScopeAnalysis.cpp filter by
IsItFromMainModule; the production report path has no filter.) -/
theorem GenerateReports_reports_all_candidates (declOf : ℕ → SrcDecl)
    (isMainModule : ℕ → Bool) (cands : Finset ℕ) (d : ℕ) (hd : d ∈ cands)
    (_hloc : isMainModule (declOf d).loc = false) :
    ReportVariablePseudoConstness (declOf d) ∈ GenerateReports declOf cands :=
  Finset.mem_image_of_mem _ hd

/-- Witness for the amended C9 theorem. -/
theorem GenerateReports_reports_all_candidates_witness :
    ReportVariablePseudoConstness (declOfFixture 5) ∈
      GenerateReports declOfFixture {5} :=
  GenerateReports_reports_all_candidates declOfFixture notMainModule {5} 5
    (by decide) (by decide)

/-- Claim C4: an argument whose declared parameter type is neither a
reference nor a pointer (pass by value) is never registered as changed
by the call visitor — no registration of VisitCallExpr carries its
argument position — and likewise for the constructor visitor,
independently of anything about the callee body. -/
theorem VisitCallExpr_by_value_never_registered (c : CallSite) (F : FnInfo)
    (hc : c.callee = some F) (i : ℕ) (t : CType) (ht : F.params.get? i = some t)
    (href : t.isReferenceType = false) (hptr : t.isPointerType = false) :
    (∀ r ∈ VisitCallExprRegistrations c, r.1 ≠ i + callOffset c) ∧
    (∀ (args : List CExpr), ∀ r ∈ VisitCXXConstructExprRegistrations args F,
      r.1 ≠ i) := by
  have hval : IsNonConstReferenced t = false := by
    simp [IsNonConstReferenced, href, hptr]
  constructor
  · intro r hr
    unfold VisitCallExprRegistrations at hr
    rw [hc] at hr
    obtain ⟨j, hj, hfj⟩ := List.mem_filterMap.mp hr
    cases hget : F.params.get? j with
    | none =>
      rw [hget] at hfj
      exact absurd hfj (by simp)
    | some p =>
      rw [hget] at hfj
      have hfj2 : (if IsNonConstReferenced p = true then
          some (j + callOffset c, c.args.get? (j + callOffset c), p.getPointeeType)
          else none) = some r := hfj
      by_cases hp : IsNonConstReferenced p = true
      · rw [if_pos hp] at hfj2
        have hr1 : r = (j + callOffset c, c.args.get? (j + callOffset c),
            p.getPointeeType) := (Option.some_inj.mp hfj2).symm
        rw [hr1]
        intro hEq
        have hji : j = i := Nat.add_right_cancel hEq
        rw [hji, ht] at hget
        rw [← Option.some_inj.mp hget] at hp
        rw [hval] at hp
        exact Bool.false_ne_true hp
      · rw [if_neg hp] at hfj2
        exact absurd hfj2 (by simp)
  · intro args r hr
    unfold VisitCXXConstructExprRegistrations at hr
    obtain ⟨j, hj, hfj⟩ := List.mem_filterMap.mp hr
    cases hget : F.params.get? j with
    | none =>
      rw [hget] at hfj
      exact absurd hfj (by simp)
    | some p =>
      rw [hget] at hfj
      have hfj2 : (if IsNonConstReferenced p = true then
          some (j, args.get? j, p.getPointeeType) else none) = some r := hfj
      by_cases hp : IsNonConstReferenced p = true
      · rw [if_pos hp] at hfj2
        have hr1 : r = (j, args.get? j, p.getPointeeType) :=
          (Option.some_inj.mp hfj2).symm
        rw [hr1]
        intro hEq
        have hji : j = i := hEq
        rw [hji, ht] at hget
        rw [← Option.some_inj.mp hget] at hp
        rw [hval] at hp
        exact Bool.false_ne_true hp
      · rw [if_neg hp] at hfj2
        exact absurd hfj2 (by simp)

/-- A concrete ordinary call: two arguments, a callee whose first
parameter is by-value int and whose second is a non-const int
reference. -/
def callSiteFixture : CallSite :=
  ⟨[.declRef 1, .declRef 2], some ⟨[.builtin false, .ref false (.builtin false)]⟩,
   false⟩

/-- Witness for the C4 theorem: position 0 of the fixture call is
by-value and never registered. -/
theorem VisitCallExpr_by_value_never_registered_witness :
    (∀ r ∈ VisitCallExprRegistrations callSiteFixture,
      r.1 ≠ 0 + callOffset callSiteFixture) ∧
    (∀ (args : List CExpr),
      ∀ r ∈ VisitCXXConstructExprRegistrations args
        ⟨[.builtin false, .ref false (.builtin false)]⟩, r.1 ≠ 0) :=
  VisitCallExpr_by_value_never_registered callSiteFixture
    ⟨[.builtin false, .ref false (.builtin false)]⟩ rfl 0 (.builtin false)
    rfl rfl rfl

/-- Claim C10: the call and constructor visitors walk only the first
min(number of arguments, number of parameters) parameter positions, so
every registration looks up an argument that exists (the lookup
succeeds) and arguments beyond that window are never registered.  For
an operator member call the argument list carries the implicit object
in front (one more argument than parameters), which keeps the shifted
lookup in bounds too. -/
theorem VisitCallExpr_bounds (c : CallSite) (F : FnInfo) (hc : c.callee = some F)
    (hop : c.isOperatorMemberCall = true → c.args.length = F.params.length + 1) :
    (∀ r ∈ VisitCallExprRegistrations c,
      (∃ e, r.2.1 = some e) ∧
        r.1 - callOffset c < min c.args.length F.params.length) ∧
    (∀ (args : List CExpr) (G : FnInfo),
      ∀ r ∈ VisitCXXConstructExprRegistrations args G,
      (∃ e, r.2.1 = some e) ∧ r.1 < min args.length G.params.length) := by
  constructor
  · intro r hr
    unfold VisitCallExprRegistrations at hr
    rw [hc] at hr
    obtain ⟨j, hj, hfj⟩ := List.mem_filterMap.mp hr
    have hjlt : j < min c.args.length F.params.length := List.mem_range.mp hj
    cases hget : F.params.get? j with
    | none =>
      rw [hget] at hfj
      exact absurd hfj (by simp)
    | some p =>
      rw [hget] at hfj
      have hfj2 : (if IsNonConstReferenced p = true then
          some (j + callOffset c, c.args.get? (j + callOffset c), p.getPointeeType)
          else none) = some r := hfj
      by_cases hp : IsNonConstReferenced p = true
      · rw [if_pos hp] at hfj2
        have hr1 : r = (j + callOffset c, c.args.get? (j + callOffset c),
            p.getPointeeType) := (Option.some_inj.mp hfj2).symm
        rw [hr1]
        have hbound : j + callOffset c < c.args.length := by
          cases hco : c.isOperatorMemberCall with
          | false =>
            have : callOffset c = 0 := by simp [callOffset, hco]
            rw [this]
            have := Nat.min_le_left c.args.length F.params.length
            omega
          | true =>
            have hlen := hop hco
            have : callOffset c = 1 := by simp [callOffset, hco]
            rw [this]
            have := Nat.min_le_right c.args.length F.params.length
            omega
        constructor
        · cases hg : c.args.get? (j + callOffset c) with
          | none =>
            have := List.get?_eq_none.mp hg
            omega
          | some e => exact ⟨e, rfl⟩
        · have : j + callOffset c - callOffset c = j := by omega
          rw [this]
          exact hjlt
      · rw [if_neg hp] at hfj2
        exact absurd hfj2 (by simp)
  · intro args G r hr
    unfold VisitCXXConstructExprRegistrations at hr
    obtain ⟨j, hj, hfj⟩ := List.mem_filterMap.mp hr
    have hjlt : j < min args.length G.params.length := List.mem_range.mp hj
    cases hget : G.params.get? j with
    | none =>
      rw [hget] at hfj
      exact absurd hfj (by simp)
    | some p =>
      rw [hget] at hfj
      have hfj2 : (if IsNonConstReferenced p = true then
          some (j, args.get? j, p.getPointeeType) else none) = some r := hfj
      by_cases hp : IsNonConstReferenced p = true
      · rw [if_pos hp] at hfj2
        have hr1 : r = (j, args.get? j, p.getPointeeType) :=
          (Option.some_inj.mp hfj2).symm
        rw [hr1]
        refine ⟨?_, hjlt⟩
        have hbound : j < args.length := by
          have := Nat.min_le_left args.length G.params.length
          omega
        cases hg : args.get? j with
        | none =>
          have := List.get?_eq_none.mp hg
          omega
        | some e => exact ⟨e, rfl⟩
      · rw [if_neg hp] at hfj2
        exact absurd hfj2 (by simp)

/-- A concrete operator member call: two arguments (the implicit object
in front), a method callee with one non-const reference parameter. -/
def operatorCallFixture : CallSite :=
  ⟨[.declRef 1, .declRef 2], some ⟨[.ref false (.builtin false)]⟩, true⟩

/-- Witness for the C10 theorem on the operator member call fixture. -/
theorem VisitCallExpr_bounds_witness :
    (∀ r ∈ VisitCallExprRegistrations operatorCallFixture,
      (∃ e, r.2.1 = some e) ∧
        r.1 - callOffset operatorCallFixture <
          min operatorCallFixture.args.length
            (FnInfo.mk [.ref false (.builtin false)]).params.length) ∧
    (∀ (args : List CExpr) (G : FnInfo),
      ∀ r ∈ VisitCXXConstructExprRegistrations args G,
      (∃ e, r.2.1 = some e) ∧ r.1 < min args.length G.params.length) :=
  VisitCallExpr_bounds operatorCallFixture ⟨[.ref false (.builtin false)]⟩ rfl
    (fun _ => rfl)
